import Mathlib

set_option autoImplicit false

/-!
Verification development for the omegaml lazy MongoDB dataframe engine.

The definitions below are a shallow embedding of the Python source:

* `omegaml/store/filtered.py`  (`FilteredCollection`)
* `omegaml/store/queryops.py`  (`MongoQueryOps`, `GeoJSON`)
* `omegaml/mdataframe.py`      (`MDataFrame`, `MLocIndexer`, `MPosIndexer`,
  `MGrouper`, `merge`)
* `omegaml/mixins/mdf/parallel.py` (`ParallelApplyMixin._chunker`,
  `pyapply_process_chunk`)

MongoDB collections are modelled as lists of documents; a document is an
association list from field names to values.  MongoDB itself (find, skip,
limit, the aggregation stages used by the code) is an external collaborator
and is modelled by its documented semantics.
-/

/-- A document field value: integers, strings, or the null marker (NaN). -/
inductive Val where
  | vint : Int → Val
  | vstr : String → Val
  | vnull : Val
deriving DecidableEq, Repr

/-- A MongoDB document: an association list from field names to values. -/
abbrev Doc := List (String × Val)

/-- Lookup of a field in a document (first binding wins, as in a dict). -/
def docGet (d : Doc) (k : String) : Option Val :=
  (d.find? (fun p => p.1 == k)).map (fun p => p.2)

/-- An equality-only MongoDB filter document, e.g. the translation of
`Filter(coll, x=1, y=2)`: an association list from field names to the
required values. -/
abbrev Query := List (String × Val)

/-- Lookup of a key in a filter document. -/
def lookupVal (q : Query) (k : String) : Option Val :=
  (q.find? (fun p => p.1 == k)).map (fun p => p.2)

/-- Python `dict(q).update(f)`: every key of `q` keeps its position but is
overwritten by `f` where `f` has the same key; keys only in `f` are appended.
This is the merge used by every `FilteredCollection` read operation
(`query = dict(self.query); query.update(filter or ...)`,
`omegaml/store/filtered.py`). -/
def dictUpdate (q f : Query) : Query :=
  q.map (fun p => (p.1, (lookupVal f p.1).getD p.2))
    ++ f.filter (fun p => (lookupVal q p.1).isNone)

/-- A document matches an equality filter iff every listed field is present
with the required value. -/
def matchesQ (q : Query) (d : Doc) : Bool :=
  q.all (fun p => docGet d p.1 == some p.2)

/-- MongoDB `collection.find(filter)` over the modelled document list. -/
def collFind (docs : List Doc) (q : Query) : List Doc :=
  docs.filter (matchesQ q)

/-- MongoDB `collection.count(filter)`. -/
def collCount (docs : List Doc) (q : Query) : Nat :=
  (collFind docs q).length

/-- MongoDB `collection.find_one(filter)`. -/
def collFindOne (docs : List Doc) (q : Query) : Option Doc :=
  (collFind docs q).head?

/-- MongoDB `collection.distinct(key, filter)`: the distinct values of `key`
among the matching documents. -/
def collDistinct (docs : List Doc) (key : String) (q : Query) : List Val :=
  ((collFind docs q).filterMap (fun d => docGet d key)).dedup

/-- A collection handle as seen by `FilteredCollection.__init__`: either a raw
pymongo `Collection` (identified by a number) or a `FilteredCollection`
wrapping another handle together with its fixed query
(`omegaml/store/filtered.py`). -/
inductive CollRef where
  | raw : Nat → CollRef
  | filtered : CollRef → Query → CollRef
deriving DecidableEq, Repr

/-- The unwrap loop of `FilteredCollection.__init__`:
`while not isinstance(collection, Collection): collection = collection.collection`.
It peels every `FilteredCollection` layer down to the raw collection. -/
def unwrapColl : CollRef → CollRef
  | .raw n => .raw n
  | .filtered b _ => unwrapColl b

/-- Whether a handle is a raw collection. -/
def isRawColl : CollRef → Bool
  | .raw _ => true
  | .filtered _ _ => false

/-- `FilteredCollection(collection, query=q)`: the constructor unwraps the
given handle to the raw collection and installs `q` as the fixed query
(`omegaml/store/filtered.py` lines 53-62). -/
def mkFilteredCollection (c : CollRef) (q : Query) : CollRef :=
  .filtered (unwrapColl c) q

/-- The state of a `FilteredCollection` relevant to its read operations: its
fixed query (`self._fixed_query`).  The raw collection contents are passed to
each operation as a document list. -/
structure FilteredCollection where
  fixed_query : Query
deriving DecidableEq, Repr

/-- Modelled from the spec: `omegaml/store/query.py` (`Filter`) is not under
src/.  The `FilteredCollection.query` property returns
`Filter(self.collection, **self._fixed_query).query`; per spec section 4.1 the
translator combines plain keyword pairs with logical AND into the native
filter, so on equality-only criteria it is the identity mapping. -/
def fcQuery (fc : FilteredCollection) : Query :=
  fc.fixed_query

/-- The merged filter every `FilteredCollection` read operation computes:
`query = dict(self.query); query.update(filter or ...)`. -/
def fcMerged (fc : FilteredCollection) (f : Option Query) : Query :=
  dictUpdate (fcQuery fc) (f.getD [])

/-- `FilteredCollection.find(filter=f)` (`omegaml/store/filtered.py`). -/
def fcFind (fc : FilteredCollection) (f : Option Query) (docs : List Doc) : List Doc :=
  collFind docs (fcMerged fc f)

/-- `FilteredCollection.find_one(filter=f)`. -/
def fcFindOne (fc : FilteredCollection) (f : Option Query) (docs : List Doc) : Option Doc :=
  collFindOne docs (fcMerged fc f)

/-- `FilteredCollection.count(filter=f)`. -/
def fcCount (fc : FilteredCollection) (f : Option Query) (docs : List Doc) : Nat :=
  collCount docs (fcMerged fc f)

/-- `FilteredCollection.distinct(key, filter=f)`. -/
def fcDistinct (fc : FilteredCollection) (key : String) (f : Option Query)
    (docs : List Doc) : List Val :=
  collDistinct docs key (fcMerged fc f)

/-- An aggregation pipeline stage; only the match stage is needed here. -/
inductive Stage where
  | smatch : Query → Stage
deriving DecidableEq, Repr

/-- Evaluation of a pipeline of match stages over a collection. -/
def evalPipeline (docs : List Doc) (p : List Stage) : List Doc :=
  p.foldl (fun ds s => match s with | .smatch q => collFind ds q) docs

/-- `FilteredCollection.aggregate(pipeline, filter=f)`: prepends
`qops.MATCH(query)` for the merged filter onto the caller's pipeline
(`omegaml/store/filtered.py` lines 80-85). -/
def fcAggregate (fc : FilteredCollection) (pipeline : List Stage)
    (f : Option Query) : List Stage :=
  Stage.smatch (fcMerged fc f) :: pipeline

/-- The query and copy state of an `MDataFrame`
(`omegaml/mdataframe.py` lines 323-372): collection handle, projected
columns, sort order, limit (`head_limit`), skip (`skip_topn`), filter
criteria, and the indexer flags. -/
structure MDataFrame where
  collection : CollRef
  columns : List String
  sort_order : Option (List String)
  head_limit : Option Nat
  skip_topn : Option Nat
  filter_criteria : Query
  from_loc_indexer : Bool
  immediate_loc : Bool
deriving DecidableEq, Repr

/-- `MDataFrame.__init__(collection, columns=.., query=.., ...)`: all state is
stored; when `filter_criteria` is non-empty the constructor calls
`query_inplace(**filter_criteria)`, which re-wraps the collection in a
`FilteredCollection` carrying those criteria (lines 346-348; the `Filter`
translation of equality criteria is the identity, see `fcQuery`). -/
def mdfInit (collection : CollRef) (columns : List String)
    (sort_order : Option (List String)) (head_limit skip_topn : Option Nat)
    (query : Query) (from_loc_indexer immediate_loc : Bool) : MDataFrame :=
  { collection := if query.isEmpty then collection
                  else mkFilteredCollection collection query
    columns := columns
    sort_order := sort_order
    head_limit := head_limit
    skip_topn := skip_topn
    filter_criteria := query
    from_loc_indexer := from_loc_indexer
    immediate_loc := immediate_loc }

/-- The observable outcome of calling a Python method on a frame object:
the state of the returned frame, the state of the receiver after the call,
and whether the returned value is a new object (rather than `self`). -/
structure CallResult where
  ret : MDataFrame
  selfAfter : MDataFrame
  isNewObject : Bool
deriving DecidableEq, Repr

/-- `MDataFrame.sort(columns)` (`omegaml/mdataframe.py` lines 557-568):
`self.sort_order = make_tuple(columns); return self` — it assigns the sort
order on the receiver and returns the receiver itself. -/
def MDataFrame.sortOp (f : MDataFrame) (cols : List String) : CallResult :=
  let fnew := { f with sort_order := some cols }
  ⟨fnew, fnew, false⟩

/-- `MDataFrame.head(limit)` (lines 570-578): `self.head_limit = limit;
return self`. -/
def MDataFrame.headOp (f : MDataFrame) (limit : Nat) : CallResult :=
  let fnew := { f with head_limit := some limit }
  ⟨fnew, fnew, false⟩

/-- `MDataFrame.skip(topn)` (lines 590-598): `self.skip_topn = topn;
return self`. -/
def MDataFrame.skipOp (f : MDataFrame) (topn : Nat) : CallResult :=
  let fnew := { f with skip_topn := some topn }
  ⟨fnew, fnew, false⟩

/-- `MDataFrame.query_inplace(...)` (lines 775-790): replaces
`self.filter_criteria` with the translated criteria, wraps `self.collection`
in a `FilteredCollection` over them, and returns `self`.  The `Filter`
translation of equality criteria is the identity (see `fcQuery`). -/
def MDataFrame.queryInplaceOp (f : MDataFrame) (q : Query) : CallResult :=
  let fnew := { f with
    filter_criteria := q
    collection := mkFilteredCollection f.collection q }
  ⟨fnew, fnew, false⟩

/-- `MDataFrame.query(...)` (lines 792-812): merges the new criteria into a
copy of `self.filter_criteria` by dict update, wraps `self.collection` in a
`FilteredCollection` over the merged criteria, and returns a new frame built
by the constructor with the copy kwargs of the receiver; the receiver is not
touched. -/
def MDataFrame.queryOp (f : MDataFrame) (q : Query) : CallResult :=
  let eff := dictUpdate f.filter_criteria q
  let coll := mkFilteredCollection f.collection eff
  ⟨mdfInit coll f.columns f.sort_order f.head_limit f.skip_topn eff
     f.from_loc_indexer f.immediate_loc, f, true⟩

/-- `MDataFrame.__getitem__(cols)` for a list of columns (lines 398-401):
builds a new `MDataFrame` on `self.collection` with the copy kwargs of the
receiver and `columns` replaced; the receiver is not touched. -/
def MDataFrame.getitemOp (f : MDataFrame) (cols : List String) : CallResult :=
  ⟨mdfInit f.collection cols f.sort_order f.head_limit f.skip_topn
     f.filter_criteria f.from_loc_indexer f.immediate_loc, f, true⟩

/-- The shape of the value returned by `MDataFrame.value`: a full table
(DataFrame), a one-dimensional row view or column view (Series), or a bare
scalar. -/
inductive ResultShape where
  | table : ResultShape
  | row : ResultShape
  | column : ResultShape
  | scalar : ResultShape
deriving DecidableEq, Repr

/-- The shape-collapsing logic of `MDataFrame.value`
(`omegaml/mdataframe.py` lines 516-525) as a function of the resolved
result's row count, column count, the `from_loc_indexer` / `from_loc_range`
flags, and whether the index is a `MultiIndex`:

* `len(df) == 1 and not from_loc_range`: the frame is transposed and the
  single row becomes a one-dimensional view; if that view has one entry
  (one column) and the index is not a MultiIndex it collapses further to
  `df.iloc[0]`, a bare scalar;
* `elif df.shape[1] == 1 and not from_loc_range` (a cursor DataFrame always
  has `ndim == 2`): the single column becomes a one-dimensional view;
* otherwise the result stays tabular.  Without `from_loc_indexer` nothing
  collapses. -/
def collapseShape (nrows ncols : Nat) (from_loc_indexer from_loc_range
    multiindex : Bool) : ResultShape :=
  if from_loc_indexer then
    if nrows == 1 && !from_loc_range then
      if ncols == 1 && !multiindex then .scalar else .row
    else if ncols == 1 && !from_loc_range then .column
    else .table
  else .table

/-- A comparison produced for one end of a slice by
`MLocIndexer._get_filter`: `col__gte` or `col__lte`. -/
inductive SliceCond where
  | gte : Int → SliceCond
  | lte : Int → SliceCond
deriving DecidableEq, Repr

/-- Whether an index value satisfies one slice comparison. -/
def condHolds (v : Int) : SliceCond → Bool
  | .gte a => a ≤ v
  | .lte b => v ≤ b

/-- Whether an index value satisfies all comparisons of a slice filter. -/
def slicesHold (conds : List (String × SliceCond)) (v : Int) : Bool :=
  conds.all (fun p => condHolds v p.2)

/-- The slice branch of `MLocIndexer._get_filter`
(`omegaml/mdataframe.py` lines 217-225): a slice `start:stop` contributes
`col__gte = start` when `start` is given, and `col__lte = stop` when `stop`
is given, where an integer `stop` is first decremented by
`int(self.positional)`.  `MPosIndexer` (lines 266-272) is the same indexer
with `positional=True`, in which case the filter column is the bookkeeping
field `_om#rowid` (line 190). -/
def sliceFilter (positional : Bool) (col : String) (start stop : Option Int) :
    List (String × SliceCond) :=
  (match start with
    | some a => [(col, SliceCond.gte a)]
    | none => [])
  ++ (match stop with
    | some b => [(col, SliceCond.lte (b - (if positional then 1 else 0)))]
    | none => [])

/-- The filter column used by a positional (`.iloc`) indexer
(`MLocIndexer._get_filter` line 190). -/
def posIndexColumn : String := "_om#rowid"

/-- `MGrouper.STATS_MAP` (`omegaml/mdataframe.py` lines 25-28) as the lookup
`STATS_MAP.get(stat, stat)`: translates a pandas-facing statistic name to the
store's aggregation operator name where they differ. -/
def statsMap (stat : String) : String :=
  if stat = "std" then "stdDevSamp"
  else if stat = "mean" then "avg"
  else stat

/-- One group-stage accumulator as built by `add_stats`: the pair
(operator name, source field), standing for the document
`dollar-op : dollar-column`. -/
abbrev GroupAccum := String × String

/-- `add_stats(specs, column, stat)` (`omegaml/mdataframe.py` lines 63-65):
adds the output field `column_stat` computing the translated operator over
`column`. -/
def addStats (specs : List (String × GroupAccum)) (column stat : String) :
    List (String × GroupAccum) :=
  specs ++ [(column ++ "_" ++ stat, ("$" ++ statsMap stat, "$" ++ column))]

/-- The accumulator-building loop of `MGrouper.aggregate`
(`omegaml/mdataframe.py` lines 67-72): for every `(column, stats)` pair of the
specs and every statistic in `stats`, one output field is added. -/
def buildGroupSpecs (specs : List (String × List String)) :
    List (String × GroupAccum) :=
  specs.foldl (fun acc p => p.2.foldl (fun acc2 stat => addStats acc2 p.1 stat) acc) []

/-- `qops.GROUP(columns=.., **specs)` (`omegaml/store/queryops.py`
lines 114-129): a group stage with `_id` mapping every group column to its
field and one entry per accumulator. -/
structure GroupStage where
  keys : List String
  accums : List (String × GroupAccum)
deriving DecidableEq, Repr

/-- Builds the group stage exactly as `MGrouper.aggregate` lines 73-74 do. -/
def mkGroupStage (columns : List String) (specs : List (String × GroupAccum)) :
    GroupStage :=
  ⟨columns, specs⟩

/-- The integer value of a field, 0 when absent or non-numeric (the documents
of the concrete claims are all integer-valued). -/
def docInt (d : Doc) (k : String) : Int :=
  match docGet d k with
  | some (.vint n) => n
  | _ => 0

/-- Evaluation of one group accumulator over the documents of a group.  Only
the `$sum` accumulator over a `$field` reference is given a value - it is the
only one the concrete claims evaluate; MongoDB is the external collaborator
executing the stage. -/
def evalAccum (docs : List Doc) : GroupAccum → Val
  | (op, src) =>
    if op = "$sum" then .vint ((docs.map (fun d => docInt d (src.drop 1))).sum)
    else .vnull

/-- The `_id` sub-document of a document under the group keys. -/
def groupKeyOf (keys : List String) (d : Doc) : Doc :=
  keys.map (fun k => (k, (docGet d k).getD .vnull))

/-- MongoDB group-stage evaluation: one output row per distinct key
sub-document (in order of first appearance), each accumulator evaluated over
that key's documents. -/
def evalGroupStage (docs : List Doc) (g : GroupStage) :
    List (Doc × List (String × Val)) :=
  ((docs.map (groupKeyOf g.keys)).dedup).map (fun key =>
    (key, g.accums.map (fun a =>
      (a.1, evalAccum (docs.filter (fun d => groupKeyOf g.keys d == key)) a.2))))

/-- `MGrouper.aggregate(specs)` (`omegaml/mdataframe.py` lines 52-92) for a
group over `columns`: build the accumulators, build the group stage, and
evaluate it on the collection.  (`_amend_pipeline` appends an ascending sort
by `_id`; the concrete claim below is evaluated on documents whose groups
already appear in ascending key order, so the sort stage is the identity
there.) -/
def mgrouperAggregate (docs : List Doc) (columns : List String)
    (specs : List (String × List String)) : List (Doc × List (String × Val)) :=
  evalGroupStage docs (mkGroupStage columns (buildGroupSpecs specs))

/-- The row positions of a collection of `n` documents selected by a frame's
skip/limit state.  MongoDB applies `skip` before `limit` regardless of the
order in which `_get_cursor` (`omegaml/mdataframe.py` lines 542-555) sets them
on the cursor. -/
def frameRows (n : Nat) (f : MDataFrame) : List Nat :=
  match f.head_limit with
  | none => (List.range n).drop (f.skip_topn.getD 0)
  | some l => ((List.range n).drop (f.skip_topn.getD 0)).take l

/-- The chunk offsets `range(0, maxobs, chunksize)` of
`ParallelApplyMixin._chunker`. -/
def chunkStarts (maxobs chunksize : Nat) : List Nat :=
  (List.range ((maxobs + chunksize - 1) / chunksize)).map (fun j => j * chunksize)

/-- `ParallelApplyMixin._chunker` (`omegaml/mixins/mdf/parallel.py`
lines 28-34), skip/limit branch: for each offset `i` it yields
`mdf.skip(i).head(i + chunksize)`.  `skip` and `head` mutate the one shared
frame and return it; this models the state of the yielded frame at each yield
(the snapshot most favourable to the claim - the dispatched jobs actually all
alias the final state). -/
def mdfChunker (mdf : MDataFrame) (chunksize maxobs : Nat) : List MDataFrame :=
  (chunkStarts maxobs chunksize).map (fun i =>
    (((mdf.skipOp i).ret).headOp (i + chunksize)).ret)

/-- A Python exception as seen at the pool boundary of the transform engine.
`chunkProcessingError` is modelled from the spec: section 7 names a
`ChunkProcessingError` wrapper, but no such class exists anywhere in the
source - it is included here only so the claim about it can be stated. -/
inductive PyExc where
  | userExc : String → PyExc
  | runtimeError : PyExc → PyExc
  | chunkProcessingError : PyExc → PyExc
deriving DecidableEq, Repr

/-- A user transform function: receives the chunk rows and either raises or
returns `none` (the `None` return of a mutating function, after which the
original chunk is used) or a replacement row list. -/
abbrev ChunkFn := List Doc → Except PyExc (Option (List Doc))

/-- The row-sequence stamping of `pyapply_process_chunk`
(`omegaml/mixins/mdf/parallel.py` lines 147-151):
`chunkdf['_om#rowid'] = pd.RangeIndex(start, end)`. -/
def stampRowIds (rows : List Doc) (start : Nat) : List Doc :=
  rows.mapIdx (fun k d => d ++ [("_om#rowid", Val.vint (start + (k : Int)))])

/-- `pyapply_process_chunk` (`omegaml/mixins/mdf/parallel.py` lines 113-151)
for an already-resolved chunk: when the chunk is non-empty the user function
is applied; an exception `e` it raises is re-raised as `RuntimeError(e)`
(line 141); otherwise the result (or the original chunk on a `None` return)
is stamped with row ids from `i * chunksize` and inserted into the output
collection. -/
def pyapply_process_chunk (chunk : List Doc) (i chunksize : Nat)
    (applyfn : ChunkFn) (outcoll : List Doc) : Except PyExc (List Doc) :=
  if chunk.length = 0 then .ok outcoll
  else
    match applyfn chunk with
    | .error e => .error (.runtimeError e)
    | .ok res =>
      let chunkdf := res.getD chunk
      let start := i * chunksize
      if chunkdf.length ≠ 0 then .ok (outcoll ++ stampRowIds chunkdf start)
      else .ok outcoll

/-- The transform job over all chunks: chunk `j` is processed with chunk index
`j` (assigned before dispatch, `_do_transform` line 55).  The worker pool is
the external joblib collaborator; per spec section 6 a batch is synchronous
and all-or-nothing, so a raised chunk error aborts the job. -/
def runChunks : List (List Doc) → Nat → ChunkFn → Nat → List Doc →
    Except PyExc (List Doc)
  | [], _, _, _, out => .ok out
  | c :: cs, j, fn, csize, out =>
    match pyapply_process_chunk c j csize fn out with
    | .error e => .error e
    | .ok out2 => runChunks cs (j + 1) fn csize out2

/-- Whether a chunk-processing outcome is a `ChunkProcessingError`. -/
def isChunkProcErr : Except PyExc (List Doc) → Bool
  | .error (.chunkProcessingError _) => true
  | _ => false

/-- `MongoQueryOps.UNARY` (`omegaml/store/queryops.py` lines 76-77).  The
source builds it by splitting a string literal in which the comma between
`NIN` and `EXISTS` is missing, so the two fuse into the single entry
`NINEXISTS`. -/
def UNARY : List String :=
  ["IN", "LT", "LTE", "GT", "GTE", "NE", "WHERE", "GEOWITHIN", "ALL",
   "ELEMWITHIN", "NINEXISTS", "TYPE", "REGEX", "EQ"]

/-- Python `k.upper().replace('_', '')` for the ASCII operator names the
translator receives: underscores are removed and lowercase ASCII letters are
uppercased. -/
def normalizeOp (k : String) : String :=
  String.mk (k.toList.filterMap (fun c =>
    if c = '_' then none
    else if 'a' ≤ c ∧ c ≤ 'z' then some (Char.ofNat (c.toNat - 32))
    else some c))

/-- The recognition test of `MongoQueryOps.__getattr__`
(`omegaml/store/queryops.py` lines 94-97):
`k.upper().replace('_', '') in UNARY`; an unrecognized operator raises. -/
def opRecognized (k : String) : Bool :=
  UNARY.contains (normalizeOp k)

/-- The argument shapes `MongoQueryOps.NEAR` accepts
(`omegaml/store/queryops.py` lines 217-254), with coordinates as integers:
an explicit `(lon, lat)` pair (the list/tuple path through
`GeoJSON(lon, lat)`), a dict with an optional location and optional
`maxd`/`mind` bounds, or no argument at all. -/
inductive NearArg where
  | coords : Int → Int → NearArg
  | locdict : Option (Int × Int) → Option Int → Option Int → NearArg
  | nothing : NearArg
deriving DecidableEq, Repr

/-- Whether a `NEAR` argument carries no coordinates. -/
def coordsAbsent : NearArg → Bool
  | .coords _ _ => false
  | .locdict loc _ _ => loc.isNone
  | .nothing => true

/-- The geospatial predicate `NEAR` builds on success. -/
structure NearQuery where
  lon : Int
  lat : Int
  maxd : Option Int
  mind : Option Int
deriving DecidableEq, Repr

/-- `MongoQueryOps.NEAR` (`omegaml/store/queryops.py` lines 217-254).  The
failure paths of the source: a dict without a location reaches
`GeoJSON(None)`, whose `assert coordinates` fails; no argument at all leaves
`location = None` (the `assert "invalid arguments..."` on line 233 asserts a
non-empty string and never fires) and `location.get('coordinates')` raises;
and after extraction `assert lon` / `assert lat` (lines 240-241) test the
coordinates for truthiness, so a longitude or latitude equal to 0 also
raises even though coordinates were supplied. -/
def NEAR : NearArg → Except String NearQuery
  | .coords lon lat =>
    if lon = 0 ∨ lat = 0 then .error "invalid coordinate"
    else .ok ⟨lon, lat, none, none⟩
  | .locdict loc maxd mind =>
    match loc with
    | none => .error "not a valid coordinate"
    | some (lon, lat) =>
      if lon = 0 ∨ lat = 0 then .error "invalid coordinate"
      else .ok ⟨lon, lat, maxd, mind⟩
  | .nothing => .error "no location given"

/-- One keyword of a filter spec, `column[__suffix]: value`: a plain equality
keyword, a comparison keyword with an operator suffix, or a geospatial
`column__near` keyword. -/
inductive FilterKw where
  | eqv : String → Val → FilterKw
  | cmp : String → String → Val → FilterKw
  | near : String → NearArg → FilterKw
deriving DecidableEq, Repr

/-- One translated native filter condition. -/
inductive MongoCond where
  | eqc : String → Val → MongoCond
  | opc : String → String → Val → MongoCond
  | nearc : String → NearQuery → MongoCond
deriving DecidableEq, Repr

/-- Modelled from the spec: `omegaml/store/query.py` (`Filter`/`MongoQ`,
which define `InvalidFilterError`) is not under src/.  Per spec section 4.1
the translator turns each keyword into a native condition and fails with
`InvalidFilterError` on a malformed keyword; the two failure sources it wraps
are in src/: `MongoQueryOps.__getattr__` for an unrecognized operator suffix
and `MongoQueryOps.NEAR` for a failed coordinate validation. -/
def translateKw : FilterKw → Except String MongoCond
  | .eqv c v => .ok (.eqc c v)
  | .cmp c sfx v =>
    if opRecognized sfx then .ok (.opc c ("$" ++ sfx.toLower) v)
    else .error ("InvalidFilterError: operator " ++ sfx ++ " is not supported")
  | .near c arg =>
    match NEAR arg with
    | .ok nq => .ok (.nearc c nq)
    | .error e => .error ("InvalidFilterError: " ++ e)

/-- Issuing a translated filter keyword against a collection: the filter is
translated first and the store is only consulted on success, so a
translation failure never issues a query. -/
def runTranslatedFind (kw : FilterKw) (docs : List Doc) :
    Except String (List Doc) :=
  (translateKw kw).map (fun c =>
    match c with
    | .eqc col v => collFind docs [(col, v)]
    | _ => docs)

/-- The join methods the claims cover (`how='right'` is the swapped left
join, `omegaml/mdataframe.py` lines 634-637). -/
inductive HowJoin where
  | left : HowJoin
  | inner : HowJoin
deriving DecidableEq, Repr

/-- The `$lookup` stage built by `merge` (`omegaml/mdataframe.py`
lines 645-649 via `qops.LOOKUP`): the right documents whose key field equals
the left document's key field. -/
def lookupMatches (rdocs : List Doc) (k : String) (l : Doc) : List Doc :=
  rdocs.filter (fun r => docGet r k == docGet l k)

/-- The fused `$lookup` + `$unwind` stages of the merge pipeline
(`omegaml/mdataframe.py` lines 645-651, `qops.UNWIND` with
`preserveNullAndEmptyArrays = (how != 'inner')`): each left document is
paired with each of its matches; with no match it is kept once without a
match (the embedded array field is removed) when preserving, and dropped
otherwise. -/
def unwindPairs (ldocs rdocs : List Doc) (k : String) (preserve : Bool) :
    List (Doc × Option Doc) :=
  ldocs.flatMap (fun l =>
    if (lookupMatches rdocs k l).isEmpty then
      (if preserve then [(l, none)] else [])
    else (lookupMatches rdocs k l).map (fun r => (l, some r)))

/-- The source of one projected output column: a left column read from the
parent document, or a right column read from the embedded (unwound) match. -/
inductive ProjSrc where
  | fromLeft : String → ProjSrc
  | fromRight : String → ProjSrc
deriving DecidableEq, Repr

/-- The `$project` stage built by `merge` (`omegaml/mdataframe.py`
lines 652-682) for a single join key `on=k` (so `left_on`/`right_on` are
unset): every left column that is not reserved (`_id`, `_idx*`, `_om#*`) is
kept, suffixed when it collides with a right column other than the key;
every non-reserved right column other than the key is read from the embedded
match field, suffixed when it collides with a left column. -/
def mergeProjection (lcols rcols : List String) (k : String)
    (sfxL sfxR : String) : List (String × ProjSrc) :=
  (lcols.filterMap (fun c =>
    if c = "_id" ∨ c.startsWith "_idx" ∨ c.startsWith "_om#" then none
    else some ((if c ≠ k ∧ rcols.contains c then c ++ sfxL else c),
      ProjSrc.fromLeft c)))
  ++ (rcols.filterMap (fun c =>
    if c = "_id" ∨ c.startsWith "_idx" ∨ c.startsWith "_om#" then none
    else if c = k then none
    else some ((if lcols.contains c then c ++ sfxR else c),
      ProjSrc.fromRight c)))

/-- The expected output column list `merge` records on the result frame
(`expected_columns = list(project.keys())`, line 682). -/
def mergeExpectedColumns (lcols rcols : List String) (k sfxL sfxR : String) :
    List String :=
  (mergeProjection lcols rcols k sfxL sfxR).map (fun p => p.1)

/-- Evaluation of the `$project` stage on one unwound document: a `$field`
reference produces the field when present, a `$target.field` reference
produces the field of the embedded match when the match exists and has it;
a missing reference leaves the output field absent. -/
def applyProjection (proj : List (String × ProjSrc)) (l : Doc)
    (r : Option Doc) : Doc :=
  proj.filterMap (fun p =>
    match p.2 with
    | .fromLeft c => (docGet l c).map (fun v => (p.1, v))
    | .fromRight c => (r.bind (fun rd => docGet rd c)).map (fun v => (p.1, v)))

/-- The documents `merge` materializes into the target collection
(`omegaml/mdataframe.py` lines 600-699): the lookup/unwind pairs projected
by the projection stage (`$out` keeps them unchanged). -/
def mergeResultDocs (ldocs rdocs : List Doc) (lcols rcols : List String)
    (k sfxL sfxR : String) (how : HowJoin) : List Doc :=
  (unwindPairs ldocs rdocs k (how ≠ HowJoin.inner)).map (fun pr =>
    applyProjection (mergeProjection lcols rcols k sfxL sfxR) pr.1 pr.2)

/-- Modelled from the spec: `omegaml/util.py` (`cursor_to_dataframe`,
`restore_index`) is not under src/.  Per spec section 4.5, `.value` backfills
any force-declared column absent from the actual documents with the null
marker, and a record column absent from a document resolves to the null
marker; so a resolved cell is the stored value when present and null
otherwise. -/
def resolveCell (d : Doc) (c : String) : Val :=
  (docGet d c).getD .vnull

/-- Concrete frame for the chunked-transform scenario of spec section 8: a
1000-row collection, no filter, no skip/limit. -/
def c1frame : MDataFrame :=
  ⟨.raw 0, ["x"], none, none, none, [], false, false⟩

/-- The state of the second yielded chunk (`i = 100`): `skip(100)` and
`head(100 + 100)`. -/
def c1chunk1 : MDataFrame :=
  ⟨.raw 0, ["x"], none, some 200, some 100, [], false, false⟩

/-- The state of the third yielded chunk (`i = 200`): `skip(200)` and
`head(200 + 100)`. -/
def c1chunk2 : MDataFrame :=
  ⟨.raw 0, ["x"], none, some 300, some 200, [], false, false⟩

/-- A `FilteredCollection` with the fixed query `x = 1`. -/
def c2fc : FilteredCollection := ⟨[("x", Val.vint 1)]⟩

/-- A two-document collection with `x = 1` and `x = 2`. -/
def c2docs : List Doc := [[("x", Val.vint 1)], [("x", Val.vint 2)]]

/-- A caller filter constraining the same field as the fixed query of
`c2fc`, with a different value. -/
def c2callerFilter : Query := [("x", Val.vint 2)]

/-- Disjointness of the key sets of two filter documents, as a decidable
test: no key of either occurs in the other. -/
def disjointKeysB (q f : Query) : Bool :=
  q.all (fun p => (lookupVal f p.1).isNone)
    && f.all (fun p => (lookupVal q p.1).isNone)

/-- Concrete `FilteredCollection` with fixed query `x = 1`, for the amended
claim on key-disjoint caller filters. -/
def c2wfc : FilteredCollection := ⟨[("x", Val.vint 1)]⟩

/-- A caller filter on a different key than the fixed query of `c2wfc`. -/
def c2wfilter : Query := [("y", Val.vint 2)]

/-- A three-document collection exercising both keys. -/
def c2wdocs : List Doc :=
  [[("x", Val.vint 1), ("y", Val.vint 2)],
   [("x", Val.vint 1), ("y", Val.vint 3)],
   [("x", Val.vint 2), ("y", Val.vint 2)]]

/-- A concrete unfiltered frame over a raw collection. -/
def c3frame : MDataFrame :=
  ⟨.raw 7, ["x", "y"], none, none, none, [], false, false⟩

/-- Left frame documents of the duplicate-key merge counterexample: one row
with key 1. -/
def c5A : List Doc := [[("k", Val.vint 1), ("a", Val.vint 5)]]

/-- Right frame documents of the duplicate-key merge counterexample: two
rows with the same key 1. -/
def c5B : List Doc :=
  [[("k", Val.vint 1), ("b", Val.vint 1)],
   [("k", Val.vint 1), ("b", Val.vint 2)]]

/-- Left frame documents for the amended merge claim: key 1 matches once,
key 3 matches nothing. -/
def c5wL : List Doc :=
  [[("k", Val.vint 1), ("a", Val.vint 5)],
   [("k", Val.vint 3), ("a", Val.vint 6)]]

/-- Right frame documents for the amended merge claim: unique keys. -/
def c5wR : List Doc := [[("k", Val.vint 1), ("b", Val.vint 7)]]

/-- The unmatched left document of `c5wL`. -/
def c5wUnmatched : Doc := [("k", Val.vint 3), ("a", Val.vint 6)]

/-- The error situations of the amended claim C6, as the source defines
them: an unrecognized operator suffix, or a `near` predicate whose
coordinates are absent or contain a zero (truthiness-tested) component. -/
def claimedErrB : FilterKw → Bool
  | .eqv _ _ => false
  | .cmp _ sfx _ => !opRecognized sfx
  | .near _ arg =>
    match arg with
    | .coords lon lat => lon == 0 || lat == 0
    | .locdict loc _ _ =>
      match loc with
      | none => true
      | some (lon, lat) => lon == 0 || lat == 0
    | .nothing => true

/-- A collection for the C6 witness. -/
def c6wdocs : List Doc := [[("x", Val.vint 1)]]

/-- A one-row chunk for the failing-transform scenario. -/
def c7chunk : List Doc := [[("x", Val.vint 1)]]

/-- A user transform function that always raises. -/
def c7failfn : ChunkFn := fun _ => .error (.userExc "boom")

/-- The documents of the group-by example of spec section 8:
`x = [1, 1, 2, 2]`, `y = [10, 20, 30, 40]`. -/
def c9docs : List Doc :=
  [[("x", Val.vint 1), ("y", Val.vint 10)],
   [("x", Val.vint 1), ("y", Val.vint 20)],
   [("x", Val.vint 2), ("y", Val.vint 30)],
   [("x", Val.vint 2), ("y", Val.vint 40)]]

/-- Whether an `Except` outcome is a raised exception. -/
def isErr {ε α : Type} : Except ε α → Bool
  | .error _ => true
  | .ok _ => false

theorem unwrapColl_idem (c : CollRef) : unwrapColl (unwrapColl c) = unwrapColl c := by
  induction c with
  | raw n => rfl
  | filtered b q ih => simpa [unwrapColl] using ih

theorem unwrapColl_isRaw (c : CollRef) : isRawColl (unwrapColl c) = true := by
  induction c with
  | raw n => rfl
  | filtered b q ih => simpa [unwrapColl] using ih

theorem unwrap_mkFilteredCollection (c : CollRef) (q : Query) :
    unwrapColl (mkFilteredCollection c q) = unwrapColl c := by
  simp [mkFilteredCollection, unwrapColl, unwrapColl_idem]

/-- C10: constructing a `FilteredCollection` over an already filtered view
with a new query `q2` discards the inner fixed query `q1` entirely (the
result is the same as filtering the underlying handle directly), the
resulting fixed query is exactly `q2`, and the result always wraps the raw
collection directly. -/
theorem c10_nested_filtered_unwraps (c : CollRef) (q1 q2 : Query) :
    mkFilteredCollection (CollRef.filtered c q1) q2 = mkFilteredCollection c q2
    ∧ mkFilteredCollection c q2 = CollRef.filtered (unwrapColl c) q2
    ∧ isRawColl (unwrapColl c) = true :=
  ⟨rfl, rfl, unwrapColl_isRaw c⟩

/-- C8: a label-based `.loc` slice `a:b` produces the inclusive bounds
`col__gte = a` and `col__lte = b`, matched exactly by `a ≤ v ∧ v ≤ b`; a
positional `.iloc` slice first decrements the stop, producing
`_om#rowid__gte = a` and `_om#rowid__lte = b - 1`, matched exactly by the
half-open `a ≤ v ∧ v < b`. -/
theorem c8_slice_bounds (col : String) (a b v : Int) :
    sliceFilter false col (some a) (some b)
      = [(col, SliceCond.gte a), (col, SliceCond.lte b)]
    ∧ (slicesHold (sliceFilter false col (some a) (some b)) v = true ↔ a ≤ v ∧ v ≤ b)
    ∧ sliceFilter true posIndexColumn (some a) (some b)
      = [(posIndexColumn, SliceCond.gte a), (posIndexColumn, SliceCond.lte (b - 1))]
    ∧ (slicesHold (sliceFilter true posIndexColumn (some a) (some b)) v = true
        ↔ a ≤ v ∧ v < b) := by
  refine ⟨by simp [sliceFilter], ?_, by simp [sliceFilter], ?_⟩ <;>
    simp [slicesHold, sliceFilter, condHolds] <;> omega

/-- C4 counterexample: a two-row single-column non-range indexer result is
collapsed by `MDataFrame.value` to a one-dimensional column view, although
the claim says every shape other than single-row results stays tabular. -/
theorem c4_counterexample :
    collapseShape 2 1 true false false = ResultShape.column
    ∧ collapseShape 2 1 true false false ≠ ResultShape.table := by decide

/-- C4 amended: for a frame produced via an indexer, a range-flagged result
always stays tabular; a single-row non-range result collapses to a bare
scalar when it has one column and a non-hierarchical index and to a
one-dimensional row view otherwise; every other single-column non-range
result collapses to a one-dimensional column view; everything else stays
tabular, and without the indexer flag nothing collapses. -/
theorem c4_amended_collapse (nrows ncols : Nat) (rng mi : Bool) :
    collapseShape nrows ncols true rng mi =
      (if rng then ResultShape.table
       else if nrows = 1 then
         (if ncols = 1 ∧ mi = false then ResultShape.scalar else ResultShape.row)
       else if ncols = 1 then ResultShape.column
       else ResultShape.table)
    ∧ collapseShape nrows ncols false rng mi = ResultShape.table := by
  constructor
  · rcases rng <;> rcases mi <;>
      by_cases h1 : nrows = 1 <;> by_cases h2 : ncols = 1 <;>
      simp [collapseShape, h1, h2]
  · simp [collapseShape]

/-- C3 counterexample: `.sort()` does not return a new frame - it assigns
the sort order on the receiver and returns the receiver itself, so the
original frame's state changes. -/
theorem c3_counterexample :
    ¬ ((c3frame.sortOp ["x"]).isNewObject = true
       ∧ (c3frame.sortOp ["x"]).selfAfter = c3frame) := by decide

/-- C3 amended: `.query()` and column selection return new frames sharing
the underlying raw collection and leave the receiver untouched, while
`.sort()` (like `.head()`/`.skip()`) mutates the receiver in place and
returns it, and `.query_inplace()` replaces the receiver's filter state in
place. -/
theorem c3_amended_copy_on_write (f : MDataFrame) (q : Query) (cols : List String) :
    ((f.queryOp q).isNewObject = true
      ∧ (f.queryOp q).selfAfter = f
      ∧ unwrapColl (f.queryOp q).ret.collection = unwrapColl f.collection
      ∧ (f.queryOp q).ret.filter_criteria = dictUpdate f.filter_criteria q)
    ∧ ((f.getitemOp cols).isNewObject = true
      ∧ (f.getitemOp cols).selfAfter = f
      ∧ unwrapColl (f.getitemOp cols).ret.collection = unwrapColl f.collection
      ∧ (f.getitemOp cols).ret.columns = cols)
    ∧ ((f.sortOp cols).isNewObject = false
      ∧ (f.sortOp cols).ret = (f.sortOp cols).selfAfter
      ∧ (f.sortOp cols).selfAfter = { f with sort_order := some cols })
    ∧ ((f.queryInplaceOp q).isNewObject = false
      ∧ (f.queryInplaceOp q).ret = (f.queryInplaceOp q).selfAfter
      ∧ (f.queryInplaceOp q).selfAfter =
          { f with filter_criteria := q,
                   collection := mkFilteredCollection f.collection q }) := by
  refine ⟨⟨rfl, rfl, ?_, rfl⟩, ⟨rfl, rfl, ?_, rfl⟩, ⟨rfl, rfl, rfl⟩, ⟨rfl, rfl, rfl⟩⟩ <;>
    simp [MDataFrame.queryOp, MDataFrame.getitemOp, mdfInit] <;>
    split <;> simp [unwrap_mkFilteredCollection]

theorem lookupVal_isSome_of_mem {q : Query} {p : String × Val} (h : p ∈ q) :
    (lookupVal q p.1).isSome = true := by
  induction q with
  | nil => cases h
  | cons a as ih =>
    rcases List.mem_cons.mp h with rfl | hmem
    · simp [lookupVal]
    · by_cases he : a.1 == p.1
      · simp [lookupVal, List.find?, he]
      · simpa [lookupVal, List.find?, he] using ih hmem

theorem dictUpdate_of_disjoint {q f : Query} (h : disjointKeysB q f = true) :
    dictUpdate q f = q ++ f := by
  have h1 : ∀ p ∈ q, (lookupVal f p.1).isNone = true := by
    intro p hp
    exact List.all_eq_true.mp ((Bool.and_eq_true _ _).mp h).1 p hp
  have h2 : ∀ p ∈ f, (lookupVal q p.1).isNone = true := by
    intro p hp
    exact List.all_eq_true.mp ((Bool.and_eq_true _ _).mp h).2 p hp
  unfold dictUpdate
  have e1 : q.map (fun p => (p.1, (lookupVal f p.1).getD p.2)) = q := by
    calc q.map (fun p => (p.1, (lookupVal f p.1).getD p.2))
        = q.map id := by
          apply List.map_congr_left
          intro p hp
          have := h1 p hp
          simp [Option.isNone_iff_eq_none.mp this]
      _ = q := List.map_id q
  have e2 : f.filter (fun p => (lookupVal q p.1).isNone) = f :=
    List.filter_eq_self.mpr h2
  rw [e1, e2]

theorem matchesQ_append (q f : Query) (d : Doc) :
    matchesQ (q ++ f) d = (matchesQ q d && matchesQ f d) := by
  simp [matchesQ, List.all_append]

/-- C2 counterexample: with fixed query `x = 1` and caller filter `x = 2`,
`FilteredCollection.find` returns the document `x = 2`, while the
conjunction of the two filters matches nothing; the returned document does
not satisfy the fixed query, so the caller filter widened the result set. -/
theorem c2_counterexample :
    fcFind c2fc (some c2callerFilter) c2docs = [[("x", Val.vint 2)]]
    ∧ collFind c2docs (c2fc.fixed_query ++ c2callerFilter) = []
    ∧ (fcFind c2fc (some c2callerFilter) c2docs).all
        (matchesQ c2fc.fixed_query) = false := by decide

/-- C2 amended: every read operation of a `FilteredCollection` computes over
`dict(fixed).update(caller)`; when the caller filter's keys are disjoint
from the fixed filter's keys this merge is the conjunction of the two
filters, so each of find/find_one/count/distinct/aggregate computes over the
conjunction and find only narrows the fixed filter's result set.  On a
shared key the caller's value replaces the fixed one (see the
counterexample). -/
theorem c2_amended_disjoint_narrowing (fc : FilteredCollection) (f : Query)
    (docs : List Doc) (key : String)
    (h : disjointKeysB fc.fixed_query f = true) :
    fcFind fc (some f) docs
      = docs.filter (fun d => matchesQ fc.fixed_query d && matchesQ f d)
    ∧ fcCount fc (some f) docs
      = (docs.filter (fun d => matchesQ fc.fixed_query d && matchesQ f d)).length
    ∧ fcFindOne fc (some f) docs
      = (docs.filter (fun d => matchesQ fc.fixed_query d && matchesQ f d)).head?
    ∧ fcDistinct fc key (some f) docs
      = ((docs.filter (fun d => matchesQ fc.fixed_query d && matchesQ f d)).filterMap
          (fun d => docGet d key)).dedup
    ∧ evalPipeline docs (fcAggregate fc [] (some f))
      = docs.filter (fun d => matchesQ fc.fixed_query d && matchesQ f d)
    ∧ ∀ d ∈ fcFind fc (some f) docs, d ∈ collFind docs fc.fixed_query := by
  have hm : fcMerged fc (some f) = fc.fixed_query ++ f := by
    simpa [fcMerged, fcQuery] using dictUpdate_of_disjoint h
  have hfilter : collFind docs (fcMerged fc (some f))
      = docs.filter (fun d => matchesQ fc.fixed_query d && matchesQ f d) := by
    rw [hm]
    unfold collFind
    exact List.filter_congr (fun d _ => matchesQ_append _ _ d)
  refine ⟨hfilter, ?_, ?_, ?_, ?_, ?_⟩
  · simp [fcCount, collCount, hfilter]
  · simp [fcFindOne, collFindOne, hfilter]
  · simp [fcDistinct, collDistinct, hfilter]
  · simp [evalPipeline, fcAggregate, hfilter, fcFind]
  · intro d hd
    rw [fcFind, hfilter] at hd
    have := List.of_mem_filter hd
    simp only [Bool.and_eq_true] at this
    exact List.mem_filter.mpr ⟨List.mem_of_mem_filter hd, this.1⟩

/-- C2 amended witness: the amended claim evaluated at the fixed query
`x = 1`, the key-disjoint caller filter `y = 2` and a concrete three-document
collection. -/
theorem c2_amended_witness :
    disjointKeysB c2wfc.fixed_query c2wfilter = true
    ∧ fcFind c2wfc (some c2wfilter) c2wdocs
      = c2wdocs.filter (fun d => matchesQ c2wfc.fixed_query d && matchesQ c2wfilter d)
    ∧ fcCount c2wfc (some c2wfilter) c2wdocs
      = (c2wdocs.filter (fun d => matchesQ c2wfc.fixed_query d && matchesQ c2wfilter d)).length :=
  ⟨by decide,
   (c2_amended_disjoint_narrowing c2wfc c2wfilter c2wdocs "x" (by decide)).1,
   (c2_amended_disjoint_narrowing c2wfc c2wfilter c2wdocs "x" (by decide)).2.1⟩

/-- C7 counterexample: when the user function raises inside a non-empty
chunk, `pyapply_process_chunk` re-raises `RuntimeError(e)`; no
`ChunkProcessingError` is produced (the source defines no such class). -/
theorem c7_counterexample :
    isChunkProcErr (pyapply_process_chunk c7chunk 0 100 c7failfn []) = false
    ∧ pyapply_process_chunk c7chunk 0 100 c7failfn []
      = .error (.runtimeError (.userExc "boom")) :=
  ⟨rfl, rfl⟩

/-- C7 amended: an exception `e` raised by the user function inside a
non-empty chunk is wrapped and re-raised as the builtin `RuntimeError`
carrying `e` (so the original exception is preserved for diagnostics),
nothing is inserted into the output collection for that chunk, and any job
whose chunk list contains such a chunk aborts with an error - there is no
silent partial success. -/
theorem c7_amended_runtime_error_wrap (chunk : List Doc) (i csize : Nat)
    (fn : ChunkFn) (out : List Doc) (e : PyExc)
    (hne : chunk ≠ []) (hfail : fn chunk = .error e) :
    pyapply_process_chunk chunk i csize fn out = .error (.runtimeError e)
    ∧ ∀ (chunks : List (List Doc)) (j : Nat) (out2 : List Doc),
        chunk ∈ chunks → isErr (runChunks chunks j fn csize out2) = true := by
  have hlen : ¬ chunk.length = 0 := by
    simpa [List.length_eq_zero] using hne
  have hkey : ∀ (j : Nat) (out2 : List Doc),
      pyapply_process_chunk chunk j csize fn out2 = .error (.runtimeError e) := by
    intro j out2
    unfold pyapply_process_chunk
    rw [if_neg hlen, hfail]
  refine ⟨hkey i out, ?_⟩
  intro chunks
  induction chunks with
  | nil => intro j out2 hmem; cases hmem
  | cons c cs ih =>
    intro j out2 hmem
    rcases List.mem_cons.mp hmem with rfl | hmem2
    · simp [runChunks, hkey j out2, isErr]
    · unfold runChunks
      cases hpc : pyapply_process_chunk c j csize fn out2 with
      | error e2 => simp [isErr]
      | ok out3 => simpa using ih (j + 1) out3 hmem2

/-- C7 amended witness: the amended claim evaluated at a concrete one-row
chunk and an always-raising user function, also showing the one-chunk job
aborts. -/
theorem c7_amended_witness :
    c7chunk ≠ [] ∧ c7failfn c7chunk = .error (.userExc "boom")
    ∧ pyapply_process_chunk c7chunk 0 100 c7failfn []
      = .error (.runtimeError (.userExc "boom"))
    ∧ isErr (runChunks [c7chunk] 0 c7failfn 100 []) = true :=
  ⟨by decide, rfl,
   (c7_amended_runtime_error_wrap c7chunk 0 100 c7failfn [] (.userExc "boom")
      (by decide) rfl).1,
   (c7_amended_runtime_error_wrap c7chunk 0 100 c7failfn [] (.userExc "boom")
      (by decide) rfl).2 [c7chunk] 0 [] (List.mem_singleton.mpr rfl)⟩

/-- C6 counterexample: `column__near` with the explicit coordinates
`(0, 46)` - coordinates are present, and the suffix is not an unrecognized
comparison suffix - still fails, because `MongoQueryOps.NEAR` validates the
extracted longitude and latitude by truthiness (`assert lon`), rejecting the
coordinate value 0; so the translator does not fail in exactly the claimed
two situations. -/
theorem c6_counterexample :
    isErr (translateKw (.near "location" (.coords 0 46))) = true
    ∧ coordsAbsent (.coords 0 46) = false :=
  ⟨rfl, rfl⟩

/-- C6 amended: the translator fails exactly when a comparison suffix is
unrecognized (per the source's operator list, in which `NIN` and `EXISTS`
are fused into `NINEXISTS`) or a `near` predicate has absent coordinates or
a zero longitude or latitude (truthiness-validated); in every failure case
the error arises in translation, before any query is issued - the outcome is
the same for any collection contents. -/
theorem c6_amended_error_characterization (kw : FilterKw) (docs docs2 : List Doc) :
    isErr (translateKw kw) = claimedErrB kw
    ∧ (isErr (translateKw kw) = true →
        runTranslatedFind kw docs = runTranslatedFind kw docs2
        ∧ isErr (runTranslatedFind kw docs) = true) := by
  constructor
  · cases kw with
    | eqv c v => rfl
    | cmp c sfx v =>
      by_cases hop : opRecognized sfx <;> simp [translateKw, claimedErrB, hop, isErr]
    | near c arg =>
      cases arg with
      | coords lon lat =>
        by_cases h1 : lon = 0
        · simp [translateKw, NEAR, claimedErrB, h1, isErr]
        · by_cases h2 : lat = 0 <;>
            simp [translateKw, NEAR, claimedErrB, h1, h2, isErr]
      | locdict loc maxd mind =>
        cases loc with
        | none => rfl
        | some p =>
          by_cases h1 : p.1 = 0
          · simp [translateKw, NEAR, claimedErrB, h1, isErr]
          · by_cases h2 : p.2 = 0 <;>
              simp [translateKw, NEAR, claimedErrB, h1, h2, isErr]
      | nothing => rfl
  · intro herr
    unfold runTranslatedFind
    cases htr : translateKw kw with
    | error e => constructor <;> simp [Except.map, isErr]
    | ok cnd => rw [htr] at herr; simp [isErr] at herr

/-- C6 amended witness: the suffix `nin` is unrecognized by the source's
operator list (the `NINEXISTS` fusion), so translating `x__nin` fails before
any query is issued, independently of the collection contents. -/
theorem c6_amended_witness :
    isErr (translateKw (.cmp "x" "nin" (Val.vint 1))) = true
    ∧ runTranslatedFind (.cmp "x" "nin" (Val.vint 1)) c6wdocs
      = runTranslatedFind (.cmp "x" "nin" (Val.vint 1)) []
    ∧ isErr (runTranslatedFind (.cmp "x" "nin" (Val.vint 1)) c6wdocs) = true :=
  ⟨by decide,
   ((c6_amended_error_characterization (.cmp "x" "nin" (Val.vint 1)) c6wdocs []).2
      (by decide)).1,
   ((c6_amended_error_characterization (.cmp "x" "nin" (Val.vint 1)) c6wdocs []).2
      (by decide)).2⟩

theorem addStats_foldl (col : String) (stats : List String)
    (acc : List (String × GroupAccum)) :
    stats.foldl (fun a s => addStats a col s) acc
      = acc ++ stats.map (fun s =>
          (col ++ "_" ++ s, ("$" ++ statsMap s, "$" ++ col))) := by
  induction stats generalizing acc with
  | nil => simp
  | cons s ss ih =>
    rw [List.foldl_cons, ih]
    simp [addStats]

theorem buildGroupSpecs_eq (specs : List (String × List String)) :
    buildGroupSpecs specs
      = specs.flatMap (fun p => p.2.map (fun s =>
          (p.1 ++ "_" ++ s, ("$" ++ statsMap s, "$" ++ p.1)))) := by
  have aux : ∀ (sp : List (String × List String))
      (acc : List (String × GroupAccum)),
      sp.foldl (fun acc2 p => p.2.foldl (fun acc3 stat => addStats acc3 p.1 stat) acc2) acc
        = acc ++ sp.flatMap (fun p => p.2.map (fun s =>
            (p.1 ++ "_" ++ s, ("$" ++ statsMap s, "$" ++ p.1)))) := by
    intro sp
    induction sp with
    | nil => intro acc; simp
    | cons p ps ih =>
      intro acc
      rw [List.foldl_cons, addStats_foldl, ih]
      simp
  simpa [buildGroupSpecs] using aux specs []

/-- C9: `MGrouper.aggregate` produces exactly one group-stage output field
per (column, statistic) pair, named `column_statistic` and computing the
translated operator (`std` becomes `stdDevSamp`, `mean` becomes `avg`,
others pass through) over the column; and the concrete spec example -
grouping `x = [1, 1, 2, 2]` by `x` with a `sum` over `y = [10, 20, 30, 40]` -
yields the sums 30 for group 1 and 70 for group 2. -/
theorem c9_grouper_aggregate (specs : List (String × List String))
    (col stat : String) (stats : List String)
    (hc : (col, stats) ∈ specs) (hs : stat ∈ stats) :
    (col ++ "_" ++ stat, ("$" ++ statsMap stat, "$" ++ col)) ∈ buildGroupSpecs specs
    ∧ statsMap "std" = "stdDevSamp"
    ∧ statsMap "mean" = "avg"
    ∧ mgrouperAggregate c9docs ["x"] [("y", ["sum"])]
      = [([("x", Val.vint 1)], [("y_sum", Val.vint 30)]),
         ([("x", Val.vint 2)], [("y_sum", Val.vint 70)])] := by
  refine ⟨?_, rfl, rfl, by decide⟩
  rw [buildGroupSpecs_eq]
  exact List.mem_flatMap.mpr ⟨(col, stats), hc, List.mem_map.mpr ⟨stat, hs, rfl⟩⟩

/-- C9 witness: the claim applied to the concrete spec `y: sum` grouped by
`x` over the example documents. -/
theorem c9_grouper_aggregate_witness :
    ("y", ["sum"]) ∈ [("y", ["sum"])] ∧ "sum" ∈ ["sum"]
    ∧ ("y" ++ "_" ++ "sum", ("$" ++ statsMap "sum", "$" ++ "y"))
        ∈ buildGroupSpecs [("y", ["sum"])]
    ∧ mgrouperAggregate c9docs ["x"] [("y", ["sum"])]
      = [([("x", Val.vint 1)], [("y_sum", Val.vint 30)]),
         ([("x", Val.vint 2)], [("y_sum", Val.vint 70)])] :=
  ⟨by decide, by decide,
   (c9_grouper_aggregate [("y", ["sum"])] "y" "sum" ["sum"]
      (by decide) (by decide)).1,
   (c9_grouper_aggregate [("y", ["sum"])] "y" "sum" ["sum"]
      (by decide) (by decide)).2.2.2⟩

set_option maxRecDepth 100000 in
/-- C1 (code bug): the default chunker at the spec section 8 scenario
(1000 rows, `chunksize = 100`, `maxobs = 1000`) yields 10 sub-frames with
`skip = i` and `limit = i + 100`; since the store applies skip before limit,
the chunk at offset 100 covers the 200 rows 100..299 and the chunk at offset
200 covers the 300 rows 200..499 (both contain row 250, so the chunks are
not pairwise disjoint and do not cover 100 rows each), and the total number
of rows processed across all chunks is 3000, not the 1000 the claim
requires. -/
theorem c1_chunker_overlap :
    (mdfChunker c1frame 100 1000).length = 10
    ∧ (mdfChunker c1frame 100 1000).map (fun f => (f.skip_topn, f.head_limit))
      = [(some 0, some 100), (some 100, some 200), (some 200, some 300),
         (some 300, some 400), (some 400, some 500), (some 500, some 600),
         (some 600, some 700), (some 700, some 800), (some 800, some 900),
         (some 900, some 1000)]
    ∧ (mdfChunker c1frame 100 1000).get? 1 = some c1chunk1
    ∧ (mdfChunker c1frame 100 1000).get? 2 = some c1chunk2
    ∧ frameRows 1000 c1chunk1 = List.range' 100 200
    ∧ frameRows 1000 c1chunk2 = List.range' 200 300
    ∧ (frameRows 1000 c1chunk1).contains 250 = true
    ∧ (frameRows 1000 c1chunk2).contains 250 = true
    ∧ ((mdfChunker c1frame 100 1000).map (fun f => (frameRows 1000 f).length)).sum
        = 3000
    ∧ (3000 : Nat) ≠ 1000 := by decide

theorem unwindPairs_cons (l : Doc) (ls rdocs : List Doc) (k : String)
    (preserve : Bool) :
    unwindPairs (l :: ls) rdocs k preserve
      = (if (lookupMatches rdocs k l).isEmpty then
           (if preserve then [(l, none)] else [])
         else (lookupMatches rdocs k l).map (fun r => (l, some r)))
        ++ unwindPairs ls rdocs k preserve := by
  unfold unwindPairs
  rw [List.flatMap_cons]

theorem unwindPairs_left_length (ldocs rdocs : List Doc) (k : String)
    (h : ∀ l ∈ ldocs, (lookupMatches rdocs k l).length ≤ 1) :
    (unwindPairs ldocs rdocs k true).length = ldocs.length := by
  induction ldocs with
  | nil => rfl
  | cons l ls ih =>
    have hl := h l (List.mem_cons_self l ls)
    have htail := ih (fun x hx => h x (List.mem_cons_of_mem l hx))
    rw [unwindPairs_cons, List.length_append, htail]
    by_cases he : (lookupMatches rdocs k l).isEmpty
    · simp [he, Nat.add_comm]
    · have hpos : 0 < (lookupMatches rdocs k l).length :=
        List.length_pos.mpr (by simpa [List.isEmpty_iff] using he)
      have hone : (lookupMatches rdocs k l).length = 1 :=
        Nat.le_antisymm hl hpos
      simp [he, hone, Nat.add_comm]

theorem unwindPairs_inner_length (ldocs rdocs : List Doc) (k : String) :
    (unwindPairs ldocs rdocs k false).length
      = (ldocs.map (fun l => (lookupMatches rdocs k l).length)).sum := by
  induction ldocs with
  | nil => rfl
  | cons l ls ih =>
    rw [unwindPairs_cons, List.length_append, ih, List.map_cons, List.sum_cons]
    by_cases he : (lookupMatches rdocs k l).isEmpty
    · have h0 : lookupMatches rdocs k l = [] := List.isEmpty_iff.mp he
      simp [he, h0]
    · simp [he, Nat.add_comm]

theorem mergeProjection_left_entries (lcols rcols : List String)
    (k sfxL sfxR : String) (name c2 : String)
    (hdisj : rcols.all (fun c3 => c3 == k || !lcols.contains c3) = true)
    (hmem : (name, ProjSrc.fromLeft c2) ∈ mergeProjection lcols rcols k sfxL sfxR) :
    name = c2 ∧ c2 ∈ lcols := by
  rcases List.mem_append.mp hmem with hleft | hright
  · rcases List.mem_filterMap.mp hleft with ⟨c3, hc3, hres⟩
    by_cases hr : c3 = "_id" ∨ c3.startsWith "_idx" ∨ c3.startsWith "_om#"
    · simp [hr] at hres
    · rw [if_neg hr] at hres
      have heq := Option.some.inj hres
      have hname : (if c3 ≠ k ∧ rcols.contains c3 then c3 ++ sfxL else c3) = name :=
        congrArg Prod.fst heq
      have hc2 : c3 = c2 := by
        have := congrArg Prod.snd heq
        simpa using this
      subst hc2
      by_cases hsfx : c3 ≠ k ∧ rcols.contains c3
      · exfalso
        have hall := List.all_eq_true.mp hdisj c3 (by
          simpa using hsfx.2)
        have hall2 : c3 = k ∨ ¬ c3 ∈ lcols := by simpa using hall
        rcases hall2 with hk | hnc
        · exact hsfx.1 hk
        · exact hnc hc3
      · rw [if_neg hsfx] at hname
        exact ⟨hname.symm, hc3⟩
  · exfalso
    rcases List.mem_filterMap.mp hright with ⟨c3, hc3, hres⟩
    by_cases hr : c3 = "_id" ∨ c3.startsWith "_idx" ∨ c3.startsWith "_om#"
    · simp [hr] at hres
    · rw [if_neg hr] at hres
      by_cases hk : c3 = k
      · simp [hk] at hres
      · rw [if_neg hk] at hres
        have := congrArg Prod.snd (Option.some.inj hres)
        simp at this

theorem projected_right_column_null (lcols rcols : List String)
    (k sfxL sfxR : String) (l : Doc) (c : String)
    (hdisj : rcols.all (fun c3 => c3 == k || !lcols.contains c3) = true)
    (hc : c ∈ rcols) (hck : c ≠ k) :
    docGet (applyProjection (mergeProjection lcols rcols k sfxL sfxR) l none) c
      = none := by
  have hnotl : c ∉ lcols := by
    have hall := List.all_eq_true.mp hdisj c hc
    have hall2 : c = k ∨ ¬ c ∈ lcols := by simpa using hall
    rcases hall2 with hk | hnc
    · exact absurd hk hck
    · exact hnc
  rw [docGet]
  rw [List.find?_eq_none.mpr ?_]
  · rfl
  · intro x hx
    rcases List.mem_filterMap.mp hx with ⟨p, hp, hres⟩
    rcases p with ⟨name, src⟩
    cases src with
    | fromLeft c2 =>
      have hv : ∃ v, docGet l c2 = some v ∧ x = (name, v) := by
        cases hl : docGet l c2 with
        | none => simp [hl] at hres
        | some v =>
          refine ⟨v, rfl, ?_⟩
          simp [hl] at hres
          exact hres.symm
      rcases hv with ⟨v, _, rfl⟩
      have hne := mergeProjection_left_entries lcols rcols k sfxL sfxR name c2 hdisj hp
      simp only [beq_iff_eq]
      intro hceq
      exact hnotl (by rw [← hceq, hne.1]; exact hne.2)
    | fromRight c2 =>
      simp at hres

theorem unmatched_left_row_in_result (ldocs rdocs : List Doc)
    (lcols rcols : List String) (k sfxL sfxR : String) (l : Doc)
    (hl : l ∈ ldocs) (hm : lookupMatches rdocs k l = []) :
    applyProjection (mergeProjection lcols rcols k sfxL sfxR) l none
      ∈ mergeResultDocs ldocs rdocs lcols rcols k sfxL sfxR HowJoin.left := by
  unfold mergeResultDocs
  have hpair : (l, (none : Option Doc)) ∈ unwindPairs ldocs rdocs k true := by
    unfold unwindPairs
    exact List.mem_flatMap.mpr ⟨l, hl, by simp [hm]⟩
  have : (HowJoin.left ≠ HowJoin.inner) = True := by simp
  simpa [this] using
    List.mem_map_of_mem (fun pr => applyProjection
      (mergeProjection lcols rcols k sfxL sfxR) pr.1 pr.2) hpair

/-- C5 counterexample: with a single left row of key 1 and two right rows of
the same key 1, `A.merge(B, on='k', how='left')` materializes 2 rows - one
per lookup match, as the unwind stage duplicates the left row - not
`len(A) = 1`. -/
theorem c5_counterexample :
    c5A.length = 1
    ∧ (mergeResultDocs c5A c5B ["k", "a"] ["k", "b"] "k" "_x" "_y"
        HowJoin.left).length = 2
    ∧ (mergeResultDocs c5A c5B ["k", "a"] ["k", "b"] "k" "_x" "_y"
        HowJoin.left).length ≠ c5A.length := by decide

/-- C5 amended: when every left row has at most one key match in the right
frame (in particular when the right frame's keys are unique) a left merge
materializes exactly `len(A)` rows; an inner merge always materializes
exactly the number of matching (left, right) key pairs; and - with the
frames' column names disjoint except for the key - every unmatched left row
appears in the left-merge output with each right-hand expected column
resolving to the null marker. -/
theorem c5_amended_merge_counts (ldocs rdocs : List Doc)
    (lcols rcols : List String) (k sfxL sfxR : String)
    (huniq : ∀ l ∈ ldocs, (lookupMatches rdocs k l).length ≤ 1)
    (hdisj : rcols.all (fun c => c == k || !lcols.contains c) = true) :
    (mergeResultDocs ldocs rdocs lcols rcols k sfxL sfxR HowJoin.left).length
      = ldocs.length
    ∧ (mergeResultDocs ldocs rdocs lcols rcols k sfxL sfxR HowJoin.inner).length
      = (ldocs.map (fun l => (lookupMatches rdocs k l).length)).sum
    ∧ ∀ l ∈ ldocs, lookupMatches rdocs k l = [] →
        applyProjection (mergeProjection lcols rcols k sfxL sfxR) l none
          ∈ mergeResultDocs ldocs rdocs lcols rcols k sfxL sfxR HowJoin.left
        ∧ ∀ c ∈ rcols, c ≠ k →
            resolveCell
              (applyProjection (mergeProjection lcols rcols k sfxL sfxR) l none) c
              = Val.vnull := by
  refine ⟨?_, ?_, ?_⟩
  · unfold mergeResultDocs
    rw [List.length_map]
    simpa using unwindPairs_left_length ldocs rdocs k huniq
  · unfold mergeResultDocs
    rw [List.length_map]
    simpa using unwindPairs_inner_length ldocs rdocs k
  · intro l hl hm
    refine ⟨unmatched_left_row_in_result ldocs rdocs lcols rcols k sfxL sfxR l hl hm, ?_⟩
    intro c hc hck
    unfold resolveCell
    rw [projected_right_column_null lcols rcols k sfxL sfxR l c hdisj hc hck]
    rfl

/-- C5 amended witness: the amended claim at concrete frames - left rows
with keys 1 and 3, one right row with key 1 - so the left merge has 2 rows,
the inner merge has 1 row, and the unmatched key-3 row resolves its `b`
column to null. -/
theorem c5_amended_merge_counts_witness :
    (∀ l ∈ c5wL, (lookupMatches c5wR "k" l).length ≤ 1)
    ∧ (mergeResultDocs c5wL c5wR ["k", "a"] ["k", "b"] "k" "_x" "_y"
        HowJoin.left).length = c5wL.length
    ∧ (mergeResultDocs c5wL c5wR ["k", "a"] ["k", "b"] "k" "_x" "_y"
        HowJoin.inner).length
      = (c5wL.map (fun l => (lookupMatches c5wR "k" l).length)).sum
    ∧ resolveCell
        (applyProjection (mergeProjection ["k", "a"] ["k", "b"] "k" "_x" "_y")
          c5wUnmatched none) "b" = Val.vnull :=
  ⟨by decide,
   (c5_amended_merge_counts c5wL c5wR ["k", "a"] ["k", "b"] "k" "_x" "_y"
      (by decide) (by decide)).1,
   (c5_amended_merge_counts c5wL c5wR ["k", "a"] ["k", "b"] "k" "_x" "_y"
      (by decide) (by decide)).2.1,
   (((c5_amended_merge_counts c5wL c5wR ["k", "a"] ["k", "b"] "k" "_x" "_y"
      (by decide) (by decide)).2.2 c5wUnmatched (by decide) (by decide)).2 "b"
      (by decide) (by decide))⟩
